import Mathlib

/-!
# Verification of the medusa-project camera-overlay core

Shallow embedding of the calibration data model and the overlay rendering
code of `rover/ros2/src/python_utils/python_utils/pysubscribers.py` and
`rover/ros2/src/vision/vision/intrinsic/intrinsic_utils.py`, together with
theorems settling the specification claims about them.

Conventions of the embedding:
* Python floats are modelled as exact rationals (`ℚ`); Python ints as `Int`
  or `Nat`.
* Python dictionaries are modelled as association lists
  (`List (String × _)`).
* A Python function that can let an exception escape returns an
  `Except PyErr _` (or carries an explicit error component); an exception
  that is caught inside the function is not visible in the result type.
* External library calls (`cv2.pointPolygonTest`, the projection helpers of
  `vision/extrinsic/extrinsic_utils.py`) are abstracted as function
  parameters where only their results matter; the one piece of repository
  code that is not present under `src/` (`Extrinsic.load`) is modelled from
  the specification and marked as such in its doc comment.
-/

/-- A log entry produced by `printlog`: message type (`"INFO"`, `"ERROR"`,
`"WARN"`, ...) paired with the message text. -/
abbrev LogEntry := String × String

/-- Python runtime errors that the modelled code can raise. -/
inductive PyErr where
  | nameError (name : String)
  | keyError (key : String)
  | valueError
  | attributeError (name : String)
  | exception (msg : String)
  | indexError
deriving Repr, DecidableEq

/-- Python `int(...)` applied to a float: truncation toward zero. -/
def pyInt (q : ℚ) : Int :=
  if 0 ≤ q then q.floor else -((-q).floor)

/-- A raw matrix block as stored in a calibration YAML file:
`rows`, `cols` and a flat `data` list. -/
structure MatBlock where
  rows : Nat
  cols : Nat
  data : List ℚ
deriving Repr, DecidableEq

/-- Matrices are carried around by the model as their raw blocks; the code
under verification never inspects individual entries. -/
abbrev Mat := MatBlock

/-! ## Curve coefficients (`WaypointSuscriber.draw`, lines 311-319)

The six quadratic coefficients are recomputed on every `draw` from
`self.curvature` and the environment constant `self._CURV_OFFSET`:

```python
self.AR = (0.01 + self._CURV_OFFSET)*self.curvature if self.curvature > 0. else (
           0.01 - self._CURV_OFFSET)*self.curvature
self.AL = 0.01*self.curvature
```
-/

namespace WaypointSuscriber

/-- `self.AR` as computed at lines 313-314 of `pysubscribers.py`, as a
function of `self._CURV_OFFSET` and `self.curvature`. -/
def AR (CURV_OFFSET curvature : ℚ) : ℚ :=
  if curvature > 0 then (1/100 + CURV_OFFSET) * curvature
  else (1/100 - CURV_OFFSET) * curvature

/-- `self.AL` as computed at lines 315 and 318 of `pysubscribers.py`. -/
def AL (curvature : ℚ) : ℚ :=
  (1/100) * curvature

end WaypointSuscriber

/-! ## IntrinsicClass (`vision/intrinsic/intrinsic_utils.py`)

The parsed YAML dictionary is modelled as an `IntrinsicFile`: an `Option`
per key the code reads. `IntrinsicClass.load` (lines 36-106) is embedded
with its exact control flow. Two facts about the source matter:
* the module never imports `cv2`, so the call
  `cv2.initUndistortRectifyMap` at line 80 raises `NameError` on every
  execution that reaches it;
* every `printlog` in `load` other than the missing-file one interpolates
  the name `FILE_NAME`, which is not defined in the function (it was a
  constructor parameter), so those calls raise `NameError`; in particular
  the one inside the `except` clause (line 104-106) raises *after* the
  fields have been reset, and that `NameError` propagates out of `load`.
-/

/-- The contents of an intrinsic calibration YAML file, one `Option` per
key that `IntrinsicClass.load` reads; `none` = key absent. -/
structure IntrinsicFile where
  camera_matrix : Option MatBlock
  distortion_coefficients : Option MatBlock
  rectification_matrix : Option MatBlock
  projection_matrix : Option MatBlock
  image_width : Option Int
  image_height : Option Int
  distortion_model : Option String
deriving Repr, DecidableEq

/-- The mutable state of `IntrinsicClass` (constructor lines 26-34); the
file-name/file-path bookkeeping fields are not modelled. -/
structure IntrinsicClass where
  image_width : Option Int
  image_height : Option Int
  mtx : Option Mat
  distortion_model : Option String
  distortion_coefficients : Option Mat
  rectification_matrix : Option Mat
  projection_matrix : Option Mat
  map1 : Option Mat
  map2 : Option Mat
deriving Repr, DecidableEq

/-- The empty state produced by `IntrinsicClass.__init__` (and restored by
the `except` clause of `load`). -/
def IntrinsicClass.empty : IntrinsicClass :=
  ⟨none, none, none, none, none, none, none, none, none⟩

/-- `np.array(data[key]["data"]).reshape(rows, cols)` (lines 67-70):
raises `ValueError` when the flat data length does not match
`rows * cols`. -/
def reshapeBlock (b : MatBlock) : Except PyErr MatBlock :=
  if b.data.length = b.rows * b.cols then .ok b else .error .valueError

/-- The key-check of lines 61-65: a missing key reaches a `printlog` whose
message interpolates the undefined name `FILE_NAME`, raising `NameError`
(before the explicit `raise Exception('invalid file format')`). -/
def requireKey (k : Option MatBlock) : Except PyErr MatBlock :=
  match k with
  | none => .error (.nameError "FILE_NAME")
  | some b => .ok b

/-- Python `data[key]` on a modelled optional entry: `KeyError` when
absent. -/
def pyLookup (key : String) (v : Option α) : Except PyErr α :=
  match v with
  | none => .error (.keyError key)
  | some a => .ok a

/-- The body of the `try` block of `IntrinsicClass.load` (lines 44-91),
for the case where the file exists. Every path through this body ends in an
exception, because line 80 references the unimported name `cv2`; the state
mutations of lines 72-78 are therefore modelled as value computations —
they are unobservable, since the `except` clause overwrites every field.
The would-be new state is returned so the data flow stays visible. -/
def IntrinsicClass.tryBody (f : IntrinsicFile) : Except PyErr IntrinsicClass := do
  -- lines 55-70, in source order: check then reshape each required key
  let cm ← requireKey f.camera_matrix
  let cm ← reshapeBlock cm
  let dc ← requireKey f.distortion_coefficients
  let dc ← reshapeBlock dc
  let rm ← requireKey f.rectification_matrix
  let rm ← reshapeBlock rm
  let pm ← requireKey f.projection_matrix
  let pm ← reshapeBlock pm
  -- lines 72-78: direct dictionary accesses (KeyError when absent)
  let iw ← pyLookup "image_width" f.image_width
  let ih ← pyLookup "image_height" f.image_height
  let dm ← pyLookup "distortion_model" f.distortion_model
  let _populated : IntrinsicClass :=
    ⟨some iw, some ih, some cm, some dm, some dc, some rm, some pm, none, none⟩
  -- line 80: `cv2.initUndistortRectifyMap(...)` — `cv2` is never imported
  -- in intrinsic_utils.py, so the name lookup raises unconditionally
  .error (.nameError "cv2")

/-- `IntrinsicClass.load` (lines 36-106). Result: final state, emitted log
entries, and whether an exception escaped the call (`Except.error`).
* missing file (lines 46-53): logged, state untouched, normal return;
* file present: the `try` body always raises (see `IntrinsicClass.tryBody`);
  the `except` clause (lines 93-106) resets every field to `None` and then
  its own `printlog` call references the undefined `FILE_NAME`, so a
  `NameError` propagates out of `load` (and the error log is never
  emitted). The success branch (lines 90-91) would likewise raise
  `NameError` on `FILE_NAME` inside the `try`, landing in the same
  `except` clause. -/
def IntrinsicClass.load (file : Option IntrinsicFile) (s : IntrinsicClass) :
    IntrinsicClass × List LogEntry × Except PyErr Unit :=
  match file with
  | none =>
      (s, [("ERROR", "No instrinsic configuration file")], .ok ())
  | some f =>
      match IntrinsicClass.tryBody f with
      | .ok _ => (IntrinsicClass.empty, [], .error (.nameError "FILE_NAME"))
      | .error _ => (IntrinsicClass.empty, [], .error (.nameError "FILE_NAME"))

/-- A well-formed intrinsic calibration file: all keys present, camera
matrix 3×3, five distortion coefficients, 3×3 rectification, 3×4
projection. -/
def wellFormedIntrinsicFile : IntrinsicFile where
  camera_matrix := some ⟨3, 3, [1, 0, 320, 0, 1, 180, 0, 0, 1]⟩
  distortion_coefficients := some ⟨1, 5, [0, 0, 0, 0, 0]⟩
  rectification_matrix := some ⟨3, 3, [1, 0, 0, 0, 1, 0, 0, 0, 1]⟩
  projection_matrix := some ⟨3, 4, [1, 0, 320, 0, 0, 1, 180, 0, 0, 0, 1, 0]⟩
  image_width := some 640
  image_height := some 360
  distortion_model := some "plumb_bob"

/-! ## Extrinsic store, calibration-update handler, waypoint click handler
(`pysubscribers.py`) -/

/-- The per-camera extrinsic record, restricted to the fields the embedded
handlers read. -/
structure CamCal where
  image_size : Int × Int
  waypoint_area : List (Int × Int)
deriving Repr, DecidableEq

/-- Python dict assignment `d[k] = v` on an association-list model. -/
def dictSet (d : List (String × α)) (k : String) (v : α) : List (String × α) :=
  if (d.lookup k).isSome then d.map (fun kv => if kv.1 = k then (k, v) else kv)
  else d ++ [(k, v)]

/-- The shared `Extrinsic` object of `vision/extrinsic/extrinsic_utils.py`
(not under `src/`): per-label camera records (`cams`, value `none` =
uncalibrated), the consumer dirty-flag registry (`update`), and the shared
intrinsic matrices. -/
structure Extrinsic where
  cams : List (String × Option CamCal)
  update : List (String × Bool)
  mtx : Option Mat
  dist : Option Mat
deriving Repr, DecidableEq

/-- Modelled from the spec: `Extrinsic.load` is implemented in
`vision/extrinsic/extrinsic_utils.py`, which is not under `src/` (only its
callers are). Spec §4.2: the load requires the intrinsic model to be
populated (else it fails uncalibrated), fails when the calibration file is
absent or malformed (abstracted here as `file = none`), and "On success,
replaces all fields atomically and sets every entry of `dirtyFlags` to
true. On failure, leaves the previous (possibly absent) state unchanged".
Failures are recovered locally (spec §7), so the result is an `Option`:
`none` = failed, caller keeps the previous state. -/
def Extrinsic.load (e : Extrinsic) (cam_label : String) (file : Option CamCal)
    (mtx dist : Option Mat) : Option Extrinsic :=
  match mtx, dist, file with
  | some m, some d, some cal =>
      some { cams := dictSet e.cams cam_label (some cal)
             update := e.update.map (fun kv => (kv.1, true))
             mtx := some m
             dist := some d }
  | _, _, _ => none

/-- Line 170 of `pysubscribers.py`:
`self.extrinsic.update["WaypointSuscriber"] = True` — the waypoint consumer
registers its dirty flag in the shared registry. -/
def registerWaypointSuscriber (e : Extrinsic) : Extrinsic :=
  { e with update := dictSet e.update "WaypointSuscriber" true }

/-- The state of `ExtrinsicSubscriber` (`pysubscribers.py` lines 96-119):
the shared `Extrinsic` object plus the intrinsic matrices read in the
constructor. -/
structure ExtrinsicSubscriber where
  intrinsic_mtx : Option Mat
  intrinsic_dist : Option Mat
  extrinsic : Extrinsic
deriving Repr, DecidableEq

/-- `ExtrinsicSubscriber.cb_extrinsic_params` (lines 121-149). Result:
new state, log entries, and the handler's return value.
* Known label: `Extrinsic.load` runs (failure keeps the prior state);
  then lines 141-142, `for key, val in self.update.items(): val = True`:
  `ExtrinsicSubscriber` has no attribute `update`, so the access raises
  `AttributeError`, caught by the `except` clause (lines 144-147) which
  logs an error and returns `False` — and even absent that, rebinding the
  loop variable `val` writes nothing into the dictionary. The loop
  therefore never touches any flag; the final "updated" log of line 148 is
  never reached on this path.
* Unknown label: the body is skipped and execution falls through to the
  `printlog` of lines 148-149, which logs an INFO message reporting the
  parameters as updated. -/
def ExtrinsicSubscriber.cb_extrinsic_params (s : ExtrinsicSubscriber)
    (cam_label : String) (file : Option CamCal) :
    ExtrinsicSubscriber × List LogEntry × Option Bool :=
  if (s.extrinsic.cams.lookup cam_label).isSome then
    let ext' := (s.extrinsic.load cam_label file s.intrinsic_mtx
      s.intrinsic_dist).getD s.extrinsic
    ({ s with extrinsic := ext' },
     [("ERROR", "Error getting extrinsic calibrationfrom topic, AttributeError")],
     some false)
  else
    (s, [("INFO", "Extrinsic parameters for CAM" ++ cam_label ++ " updated")],
     none)

/-- The waypoint-overlay session state of `WaypointSuscriber`
(constructor lines 161-214, restricted to the fields the click handler
touches). -/
structure WaypointSuscriber where
  cam_label : String
  x_norm : Option ℚ
  y_norm : Option ℚ
  x_img : Option Int
  y_img : Option Int
  incnt : Bool
deriving Repr, DecidableEq

/-- `WaypointSuscriber.cb_screen_point` (lines 216-240). The containment
test `cv2.pointPolygonTest` (external library) is abstracted as the
argument `ppt`; the source computes its result (`ValidPoint`) and then
discards it, exactly as modelled. The crucial ordering: lines 219-220
store the normalized coordinates *before* the calibration check of line
224, so they survive the uncalibrated-camera error path; the exception of
line 225 (or the `KeyError` of the dictionary access) is caught at line
238 and logged. -/
def WaypointSuscriber.cb_screen_point (ppt : List (Int × Int) → Int × Int → ℚ)
    (cams : List (String × Option CamCal)) (s : WaypointSuscriber)
    (msg : ℚ × ℚ) : WaypointSuscriber × List LogEntry :=
  let s := { s with x_norm := some msg.1, y_norm := some msg.2 }
  match cams.lookup s.cam_label with
  | none =>
      (s, [("ERROR", "error procesing waypoint " ++ s.cam_label)])
  | some none =>
      (s, [("ERROR", "error procesing waypoint camera " ++ s.cam_label ++
        " no calibrated")])
  | some (some cal) =>
      let xi := pyInt (msg.1 * (cal.image_size.1 : ℚ))
      let yi := pyInt (msg.2 * (cal.image_size.2 : ℚ))
      let _ValidPoint := ppt cal.waypoint_area (xi, yi)
      ({ s with x_img := some xi, y_img := some yi }, [])

/-! ## Curve sampling (`WaypointSuscriber.draw`, lines 322-381)

```python
right_proj = []; left_proj = []; increment = 1
idx_y = -(view_coord[1] - unwarped_size[1])
lout = False; rout = False
while idx_y > -view_coord[1] + y_limit:
    if not lout:
        lp = <project-and-maybe-distort left curve at idx_y>
        in_cnt = cv2.pointPolygonTest(<area>, lp, True)
        if in_cnt >= 0: left_proj.append(lp)
        else: lout = True
    if not rout:
        <same for the right side>
    idx_y -= increment; increment += 1
```

The geometry (`get_projection_point_src`, `get_distor_point`,
`cv2.pointPolygonTest`, all external to `src/`) is abstracted: `lpt`/`rpt`
give the projected point for a loop index, `tl`/`tr` its signed distance
to the operating-area polygon. The loop is embedded with explicit fuel;
in the program the fuel is the (finite) number of loop iterations, and
every theorem below holds for every fuel value. -/

/-- The sequence of `idx_y` values visited by the sampling loop: start at
`idx`, step `idx -= increment; increment += 1`, continue while
`idx > L`. -/
def idxSeq (L : Int) : Nat → Int → Int → List Int
  | 0, _, _ => []
  | fuel + 1, idx, inc =>
    if idx > L then idx :: idxSeq L fuel (idx - inc) (inc + 1) else []

/-- The sampling loop of lines 322-378: appends each side's projected
point while that side's containment test is non-negative, latches the
side's `out` flag at the first negative test, and keeps iterating for the
other side. -/
def projLoop {P : Type} (lpt rpt : Int → P) (tl tr : Int → ℚ) (L : Int) :
    Nat → Int → Int → Bool → Bool → List P → List P → List P × List P
  | 0, _, _, _, _, lacc, racc => (lacc, racc)
  | fuel + 1, idx, inc, lout, rout, lacc, racc =>
    if idx > L then
      let ls := if lout then (lout, lacc)
        else if 0 ≤ tl idx then (lout, lacc ++ [lpt idx]) else (true, lacc)
      let rs := if rout then (rout, racc)
        else if 0 ≤ tr idx then (rout, racc ++ [rpt idx]) else (true, racc)
      projLoop lpt rpt tl tr L fuel (idx - inc) (inc + 1) ls.1 rs.1 ls.2 rs.2
    else (lacc, racc)

/-! ## Segment rendering (`WaypointSuscriber.draw`, lines 386-427)

Both the left-side loop (386-405) and the right-side loop (407-427) run
the identical control flow (they differ only in the sign of the horizontal
tick offset, which does not affect any claim):

```python
color_idx = 0
thickness_idx = len(self._COLORS)
for idx in range(len(side_proj) - 1):
    if self._proj_m[idx] > self._DISTAN_M[-1]:
        break
    while self._proj_m[idx] > self._DISTAN_M[color_idx]:
        color_idx += 1
        thickness_idx -= 1 if thickness_idx > 0 else thickness_idx
        cv2.line(..., color=self._COLORS[color_idx],
                 thickness=self._HOZ_THICK + thickness_idx)   # tick
    cv2.line(..., color=self._COLORS[color_idx],
             thickness=self._VER_THICK + thickness_idx)       # segment
```

`self._proj_m[idx]` (the accumulated real-world distance of sample `idx`)
is abstracted as a total sequence `pm : Nat → ℚ`. List indexing into the
hard-coded tables `self._COLORS` and `self._DISTAN_M` is modelled with
`List.get?`, raising `IndexError` when out of range, so the in-bounds
claim is the statement that the loop never returns that error. -/

/-- `self._DISTAN_M` (line 198): the four distance thresholds in
meters. -/
def DISTAN_M : List ℚ := [1, 3/2, 3, 5]

/-- `self._COLORS` (line 197): the BGR color palette. -/
def COLORS : List (Nat × Nat × Nat) :=
  [(0, 0, 255), (32, 165, 218), (0, 255, 255), (0, 255, 0)]

/-- One drawn primitive of the rendering loop: the sample index it belongs
to, the palette index used, the thickness index added to the configured
base thickness, and whether it is a horizontal tick (drawn inside the
inner `while`) or a vertical curve segment. -/
structure Seg where
  idx : Nat
  colorIdx : Nat
  tIdx : Int
  horizontal : Bool
deriving Repr, DecidableEq

/-- The inner `while` of the rendering loop (lines 393-400 / 414-421):
advances `color_idx` while the sample distance exceeds the current
threshold, steps `thickness_idx` down (`thickness_idx -= 1 if
thickness_idx > 0 else thickness_idx`, i.e. to zero once non-positive),
and draws one horizontal tick per advance. Both threshold and palette
accesses go through `List.get?` and raise `IndexError` out of range. -/
def tickLoop (d : ℚ) (i : Nat) (color : Nat) (thick : Int) (acc : List Seg) :
    Except PyErr (Nat × Int × List Seg) :=
  if h : color < DISTAN_M.length then
    if d > DISTAN_M.getD color 0 then
      let thick' := if thick > 0 then thick - 1 else 0
      if color + 1 < COLORS.length then
        tickLoop d i (color + 1) thick' (acc ++ [⟨i, color + 1, thick', true⟩])
      else .error .indexError
    else .ok (color, thick, acc)
  else .error .indexError
termination_by DISTAN_M.length - color

/-- The outer `for idx in range(stop)` of the rendering loop with its
`break` (lines 389-405 / 410-427): `stop` is `len(side_proj) - 1`. -/
def segLoop (pm : Nat → ℚ) (stop : Nat) :
    Nat → Nat → Int → List Seg → Except PyErr (List Seg)
  | i, color, thick, acc =>
    if _h : i < stop then
      if pm i > DISTAN_M.getLast! then .ok acc
      else
        match tickLoop (pm i) i color thick acc with
        | .error e => .error e
        | .ok (color', thick', acc') =>
          if color' < COLORS.length then
            segLoop pm stop (i + 1) color' thick' (acc' ++ [⟨i, color', thick', false⟩])
          else .error .indexError
    else .ok acc
termination_by i _ _ _ => stop - i

/-- One side of the segment rendering (lines 386-405 for the left side,
407-427 for the right side): `n` is the length of that side's retained
point list, `color_idx` starts at 0 and `thickness_idx` at
`len(self._COLORS)`. -/
def drawSide (pm : Nat → ℚ) (n : Nat) : Except PyErr (List Seg) :=
  segLoop pm (n - 1) 0 0 (COLORS.length : Int) []

/-! ### Specification-side description of the rendering loop

`specSegs` is written from the words of the spec (§4.4 step 6): walk the
retained sample indices until the accumulated distance exceeds the last
threshold (5.0 m); at each retained index, each newly crossed threshold
advances the color one palette slot and steps the thickness index down
one, drawing a horizontal tick per crossing; then the curve segment itself
is drawn with the current color and thickness. `bandIdx d` is the distance
band of a sample: the number of configured thresholds strictly below
`d`. -/

/-- The distance band of an accumulated distance `d`: how many of the four
thresholds `1.0, 1.5, 3.0, 5.0` lie strictly below `d`. -/
def bandIdx (d : ℚ) : Nat :=
  if d ≤ 1 then 0
  else if d ≤ 3/2 then 1
  else if d ≤ 3 then 2
  else if d ≤ 5 then 3
  else 4

/-- Spec-side rendering: from index `i` with current band `c`, stop at
`stop` or at the first index whose distance exceeds the last threshold;
otherwise emit one tick per newly crossed threshold (color stepping
through the palette, thickness index stepping down from 4 in lockstep)
and then the vertical segment for the index. -/
def specSegs (pm : Nat → ℚ) (stop : Nat) : Nat → Nat → List Seg
  | i, c =>
    if i < stop then
      if pm i ≤ 5 then
        (List.range' (c + 1) (bandIdx (pm i) - c)).map
            (fun j => ⟨i, j, 4 - (j : Int), true⟩)
          ++ ⟨i, bandIdx (pm i), 4 - (bandIdx (pm i) : Int), false⟩
          :: specSegs pm stop (i + 1) (bandIdx (pm i))
      else []
    else []
termination_by i _ => stop - i

/-! ### Helper lemmas about the band index and the rendering loops -/

theorem bandIdx_le_three {d : ℚ} (hd : d ≤ 5) : bandIdx d ≤ 3 := by
  unfold bandIdx
  split_ifs <;> first | omega | linarith

theorem bandIdx_mono {d e : ℚ} (h : d ≤ e) : bandIdx d ≤ bandIdx e := by
  unfold bandIdx
  split_ifs <;> first | omega | linarith

theorem one_lt_of_bandIdx {d : ℚ} (h : 1 ≤ bandIdx d) : 1 < d := by
  by_contra hc
  push_neg at hc
  simp [bandIdx, hc] at h

theorem three_half_lt_of_bandIdx {d : ℚ} (h : 2 ≤ bandIdx d) : 3/2 < d := by
  by_contra hc
  push_neg at hc
  unfold bandIdx at h
  split_ifs at h <;> omega

theorem three_lt_of_bandIdx {d : ℚ} (h : 3 ≤ bandIdx d) : 3 < d := by
  by_contra hc
  push_neg at hc
  unfold bandIdx at h
  split_ifs at h <;> omega

theorem le_getD_bandIdx {d : ℚ} (hd : d ≤ 5) : d ≤ DISTAN_M.getD (bandIdx d) 0 := by
  unfold bandIdx
  split_ifs <;> simp [DISTAN_M] <;> try linarith

theorem getD_lt_of_lt_bandIdx {d : ℚ} (hd : d ≤ 5) {c : Nat} (hc : c < bandIdx d) :
    DISTAN_M.getD c 0 < d := by
  have h3 : bandIdx d ≤ 3 := bandIdx_le_three hd
  have hc2 : c ≤ 2 := by omega
  interval_cases c
  · exact one_lt_of_bandIdx (by omega)
  · exact three_half_lt_of_bandIdx (by omega)
  · exact three_lt_of_bandIdx (by omega)

/-- Exact description of the inner `while` when the thickness index is in
lockstep with the color index (`thick = 4 - color`), as it always is
during rendering: the loop lands exactly on the sample's band, the
thickness index steps down in lockstep, and one tick per crossed
threshold is appended. -/
theorem tickLoop_spec {d : ℚ} (hd : d ≤ 5) (i : Nat) :
    ∀ (k c : Nat), bandIdx d - c ≤ k → c ≤ bandIdx d → ∀ (acc : List Seg),
      tickLoop d i c (4 - (c : Int)) acc =
        .ok (bandIdx d, 4 - (bandIdx d : Int),
          acc ++ (List.range' (c + 1) (bandIdx d - c)).map
            (fun j => ⟨i, j, 4 - (j : Int), true⟩)) := by
  have hb3 : bandIdx d ≤ 3 := bandIdx_le_three hd
  intro k
  induction k with
  | zero =>
    intro c hk hc acc
    have hceq : c = bandIdx d := by omega
    rw [tickLoop]
    rw [dif_pos (by simp [DISTAN_M]; omega : c < DISTAN_M.length)]
    rw [if_neg (by rw [hceq]; exact not_lt.mpr (le_getD_bandIdx hd))]
    rw [hceq]
    simp
  | succ k ih =>
    intro c hk hc acc
    rcases eq_or_lt_of_le hc with hceq | hclt
    · rw [tickLoop]
      rw [dif_pos (by simp [DISTAN_M]; omega : c < DISTAN_M.length)]
      rw [if_neg (by rw [hceq]; exact not_lt.mpr (le_getD_bandIdx hd))]
      rw [hceq]
      simp
    · rw [tickLoop]
      rw [dif_pos (by simp [DISTAN_M]; omega : c < DISTAN_M.length)]
      rw [if_pos (getD_lt_of_lt_bandIdx hd hclt)]
      have hc2 : c ≤ 2 := by omega
      have hthick : (if (4 - (c : Int)) > 0 then 4 - (c : Int) - 1 else 0)
          = 4 - ((c : Int) + 1) := by
        rw [if_pos (by omega)]
        ring
      simp only [hthick]
      rw [if_pos (by simp [COLORS]; omega : c + 1 < COLORS.length)]
      have := ih (c + 1) (by omega) (by omega)
        (acc ++ [⟨i, c + 1, 4 - ((c : Int) + 1), true⟩])
      push_cast at this
      rw [this]
      congr 1
      have hr : bandIdx d - c = (bandIdx d - (c + 1)) + 1 := by omega
      rw [hr, List.range'_succ]
      simp [List.append_assoc]

/-- Bound form of the inner `while`, for an arbitrary non-negative
thickness index and without any assumption relating it to the color
index: the loop terminates normally (no `IndexError`), the color index
stays at most 3, the thickness index stays non-negative, and every
appended tick respects both bounds. -/
theorem tickLoop_ok {d : ℚ} (hd : d ≤ 5) (i : Nat) :
    ∀ (k c : Nat), 3 - c ≤ k → c ≤ 3 → ∀ (thick : Int), 0 ≤ thick →
      ∀ (acc : List Seg),
      ∃ c' t' acc', tickLoop d i c thick acc = .ok (c', t', acc') ∧
        c' ≤ 3 ∧ 0 ≤ t' ∧
        ∀ s ∈ acc', s ∈ acc ∨ (s.colorIdx ≤ 3 ∧ 0 ≤ s.tIdx) := by
  intro k
  induction k with
  | zero =>
    intro c hk hc thick ht acc
    have hceq : c = 3 := by omega
    subst hceq
    rw [tickLoop]
    rw [dif_pos (by simp [DISTAN_M] : (3 : Nat) < DISTAN_M.length)]
    rw [if_neg (by simpa [DISTAN_M] using not_lt.mpr hd)]
    exact ⟨3, thick, acc, rfl, le_refl 3, ht, fun s hs => Or.inl hs⟩
  | succ k ih =>
    intro c hk hc thick ht acc
    rcases eq_or_lt_of_le hc with hceq | hclt
    · subst hceq
      rw [tickLoop]
      rw [dif_pos (by simp [DISTAN_M] : (3 : Nat) < DISTAN_M.length)]
      rw [if_neg (by simpa [DISTAN_M] using not_lt.mpr hd)]
      exact ⟨3, thick, acc, rfl, le_refl 3, ht, fun s hs => Or.inl hs⟩
    · rw [tickLoop]
      rw [dif_pos (by simp [DISTAN_M]; omega : c < DISTAN_M.length)]
      by_cases hdc : d > DISTAN_M.getD c 0
      · rw [if_pos hdc]
        rw [if_pos (by simp [COLORS]; omega : c + 1 < COLORS.length)]
        have ht' : (0 : Int) ≤ if thick > 0 then thick - 1 else 0 := by
          split_ifs <;> omega
        obtain ⟨c', t', acc', heq, hc', htt', hmem⟩ :=
          ih (c + 1) (by omega) (by omega) _ ht'
            (acc ++ [⟨i, c + 1, if thick > 0 then thick - 1 else 0, true⟩])
        refine ⟨c', t', acc', heq, hc', htt', fun s hs => ?_⟩
        rcases hmem s hs with hin | hnew
        · rcases List.mem_append.mp hin with hin' | hin'
          · exact Or.inl hin'
          · refine Or.inr ?_
            have : s = ⟨i, c + 1, if thick > 0 then thick - 1 else 0, true⟩ :=
              List.mem_singleton.mp hin'
            subst this
            exact ⟨by simp; omega, by simpa using ht'⟩
        · exact Or.inr hnew
      · rw [if_neg hdc]
        exact ⟨c, thick, acc, rfl, by omega, ht, fun s hs => Or.inl hs⟩

/-- Bound form of the outer rendering loop: starting from any in-range
color index, non-negative thickness index, and accumulator whose entries
already satisfy the bounds, the loop terminates normally and every
emitted primitive has an in-range color index and a non-negative
thickness index. -/
theorem segLoop_ok (pm : Nat → ℚ) (stop : Nat) :
    ∀ (k i : Nat), stop - i ≤ k → ∀ (c : Nat), c ≤ 3 → ∀ (thick : Int),
      0 ≤ thick → ∀ (acc : List Seg), (∀ s ∈ acc, s.colorIdx ≤ 3 ∧ 0 ≤ s.tIdx) →
      ∃ segs, segLoop pm stop i c thick acc = .ok segs ∧
        ∀ s ∈ segs, s.colorIdx ≤ 3 ∧ 0 ≤ s.tIdx := by
  intro k
  induction k with
  | zero =>
    intro i hk c hc thick ht acc hacc
    rw [segLoop]
    rw [dif_neg (by omega : ¬ i < stop)]
    exact ⟨acc, rfl, hacc⟩
  | succ k ih =>
    intro i hk c hc thick ht acc hacc
    rw [segLoop]
    by_cases hi : i < stop
    · rw [dif_pos hi]
      by_cases hbr : pm i > DISTAN_M.getLast!
      · rw [if_pos hbr]
        exact ⟨acc, rfl, hacc⟩
      · rw [if_neg hbr]
        have hd : pm i ≤ 5 := by
          simpa [DISTAN_M, List.getLast!] using not_lt.mp hbr
        obtain ⟨c', t', acc', heq, hc', ht', hmem⟩ :=
          tickLoop_ok hd i 3 c (by omega) hc thick ht acc
        rw [heq]
        dsimp only
        rw [if_pos (by simp [COLORS]; omega : c' < COLORS.length)]
        have hacc' : ∀ s ∈ acc' ++ [⟨i, c', t', false⟩],
            s.colorIdx ≤ 3 ∧ 0 ≤ s.tIdx := by
          intro s hs
          rcases List.mem_append.mp hs with hin | hin
          · rcases hmem s hin with h | h
            · exact hacc s h
            · exact h
          · have : s = ⟨i, c', t', false⟩ := List.mem_singleton.mp hin
            subst this
            exact ⟨hc', ht'⟩
        exact ih (i + 1) (by omega) c' hc' t' ht' _ hacc'
    · rw [dif_neg hi]
      exact ⟨acc, rfl, hacc⟩

/-- Exact description of the outer rendering loop under monotone sample
distances, with the thickness index in lockstep with the color index:
it produces precisely the spec-side segment list. -/
theorem segLoop_spec (pm : Nat → ℚ) (hmono : ∀ a b : Nat, a ≤ b → pm a ≤ pm b)
    (stop : Nat) :
    ∀ (k i : Nat), stop - i ≤ k → ∀ (c : Nat), c ≤ bandIdx (pm i) → c ≤ 3 →
      ∀ (acc : List Seg),
      segLoop pm stop i c (4 - (c : Int)) acc = .ok (acc ++ specSegs pm stop i c) := by
  intro k
  induction k with
  | zero =>
    intro i hk c hcb hc acc
    rw [segLoop, specSegs]
    rw [dif_neg (by omega : ¬ i < stop), if_neg (by omega : ¬ i < stop)]
    simp
  | succ k ih =>
    intro i hk c hcb hc acc
    rw [segLoop, specSegs]
    by_cases hi : i < stop
    · rw [dif_pos hi, if_pos hi]
      by_cases hbr : pm i > DISTAN_M.getLast!
      · rw [if_pos hbr]
        rw [if_neg (by simpa [DISTAN_M, List.getLast!] using hbr)]
        simp
      · rw [if_neg hbr]
        have hd : pm i ≤ 5 := by
          simpa [DISTAN_M, List.getLast!] using not_lt.mp hbr
        rw [if_pos hd]
        rw [tickLoop_spec hd i (bandIdx (pm i) - c) c (le_refl _) hcb acc]
        have hb3 : bandIdx (pm i) ≤ 3 := bandIdx_le_three hd
        dsimp only
        rw [if_pos (by simp [COLORS]; omega : bandIdx (pm i) < COLORS.length)]
        have hnext : bandIdx (pm i) ≤ bandIdx (pm (i + 1)) :=
          bandIdx_mono (hmono i (i + 1) (Nat.le_succ i))
        rw [ih (i + 1) (by omega) (bandIdx (pm i)) hnext hb3 _]
        simp [List.append_assoc]
    · rw [dif_neg hi, if_neg hi]
      simp

/-- In the spec-side segment list, the indices carrying a vertical curve
segment are exactly the prefix of sample indices whose distance does not
exceed the last threshold. -/
theorem specSegs_vert (pm : Nat → ℚ) (stop : Nat) :
    ∀ (k i : Nat), stop - i ≤ k → ∀ (c : Nat),
      ((specSegs pm stop i c).filter (fun s => !s.horizontal)).map (fun s => s.idx) =
        (List.range' i (stop - i)).takeWhile (fun j => decide (pm j ≤ 5)) := by
  intro k
  induction k with
  | zero =>
    intro i hk c
    rw [specSegs]
    rw [if_neg (by omega : ¬ i < stop)]
    have : stop - i = 0 := by omega
    simp [this]
  | succ k ih =>
    intro i hk c
    rw [specSegs]
    by_cases hi : i < stop
    · rw [if_pos hi]
      have hrange : stop - i = (stop - (i + 1)) + 1 := by omega
      rw [hrange, List.range'_succ]
      by_cases hle : pm i ≤ 5
      · rw [if_pos hle]
        rw [List.takeWhile_cons_of_pos (by simpa using hle)]
        rw [List.filter_append]
        have hticks : ((List.range' (c + 1) (bandIdx (pm i) - c)).map
            (fun j => (⟨i, j, 4 - (j : Int), true⟩ : Seg))).filter
              (fun s => !s.horizontal) = [] := by
          rw [List.filter_eq_nil_iff]
          intro a ha
          rcases List.mem_map.mp ha with ⟨j, _, rfl⟩
          simp
        rw [hticks]
        simp only [List.nil_append, List.filter_cons]
        simp only [Bool.not_false, if_pos]
        simp only [List.map_cons]
        rw [ih (i + 1) (by omega) (bandIdx (pm i))]
      · rw [if_neg hle]
        rw [List.takeWhile_cons_of_neg (by simpa using hle)]
        simp
    · rw [if_neg hi]
      have h0 : stop - i = 0 := by omega
      simp [h0]

/-- Full characterization of the sampling loop: each side's accumulator
grows by exactly the projections of the prefix of visited loop indices on
which that side's containment test stays non-negative — independently of
the other side, and with a latched `out` flag contributing nothing
more. -/
theorem projLoop_spec {P : Type} (lpt rpt : Int → P) (tl tr : Int → ℚ) (L : Int) :
    ∀ (fuel : Nat) (idx inc : Int) (lout rout : Bool) (lacc racc : List P),
      projLoop lpt rpt tl tr L fuel idx inc lout rout lacc racc =
        (lacc ++ if lout then [] else
          ((idxSeq L fuel idx inc).takeWhile (fun j => decide (0 ≤ tl j))).map lpt,
         racc ++ if rout then [] else
          ((idxSeq L fuel idx inc).takeWhile (fun j => decide (0 ≤ tr j))).map rpt) := by
  intro fuel
  induction fuel with
  | zero =>
    intro idx inc lout rout lacc racc
    cases lout <;> cases rout <;> simp [projLoop, idxSeq]
  | succ fuel ih =>
    intro idx inc lout rout lacc racc
    by_cases hidx : idx > L
    · rw [projLoop, idxSeq, if_pos hidx, if_pos hidx]
      cases lout
      · by_cases hl : 0 ≤ tl idx
        · cases rout
          · by_cases hr : 0 ≤ tr idx
            · simp only [Bool.false_eq_true, if_false, if_pos hl, if_pos hr]
              rw [ih]
              simp [List.takeWhile_cons, hl, hr]
            · simp only [Bool.false_eq_true, if_false, if_pos hl, if_neg hr]
              rw [ih]
              simp [List.takeWhile_cons, hl, hr]
          · simp only [Bool.false_eq_true, if_false, if_true, if_pos hl]
            rw [ih]
            simp [List.takeWhile_cons, hl]
        · cases rout
          · by_cases hr : 0 ≤ tr idx
            · simp only [Bool.false_eq_true, if_false, if_neg hl, if_pos hr]
              rw [ih]
              simp [List.takeWhile_cons, hl, hr]
            · simp only [Bool.false_eq_true, if_false, if_neg hl, if_neg hr]
              rw [ih]
              simp [List.takeWhile_cons, hl, hr]
          · simp only [Bool.false_eq_true, if_false, if_true, if_neg hl]
            rw [ih]
            simp [List.takeWhile_cons, hl]
      · cases rout
        · by_cases hr : 0 ≤ tr idx
          · simp only [Bool.false_eq_true, if_false, if_true, if_pos hr]
            rw [ih]
            simp [List.takeWhile_cons, hr]
          · simp only [Bool.false_eq_true, if_false, if_true, if_neg hr]
            rw [ih]
            simp [List.takeWhile_cons, hr]
        · simp only [if_true]
          rw [ih]
          simp
    · rw [projLoop, idxSeq, if_neg hidx, if_neg hidx]
      cases lout <;> cases rout <;> simp

/-! ## Claim theorems -/

/-- Claim C1: for every successful extrinsic reload triggered by a
calibration-update event, every entry of the consumer dirty-flag registry
(the `update` mapping, including the entry registered by the waypoint
consumer) is true after the handler returns, regardless of the entries'
prior values. `Extrinsic.load` (not under `src/`) is modelled from spec
§4.2, which sets every registry entry on a successful load; the handler's
own flag loop (lines 141-142) is a no-op on the registry, so the
property rests entirely on the load. -/
theorem claim_C1_dirty_flags_all_true (s : ExtrinsicSubscriber)
    (cam_label : String) (file : Option CamCal) (e' : Extrinsic)
    (hload : s.extrinsic.load cam_label file s.intrinsic_mtx s.intrinsic_dist
      = some e')
    (hknown : (s.extrinsic.cams.lookup cam_label).isSome = true) :
    ((s.cb_extrinsic_params cam_label file).1.extrinsic.update.all
      (fun kv => kv.2)) = true := by
  obtain ⟨imtx, idist, ext⟩ := s
  dsimp only at hload hknown
  unfold ExtrinsicSubscriber.cb_extrinsic_params
  dsimp only
  rw [if_pos hknown]
  dsimp only
  rw [hload]
  simp only [Option.getD_some]
  unfold Extrinsic.load at hload
  rcases imtx with _ | m <;> rcases idist with _ | dd <;>
    rcases file with _ | cal <;> dsimp only at hload
  all_goals try exact Option.noConfusion hload
  cases Option.some.inj hload
  simp [List.all_eq_true]

/-- The extrinsic-subscriber state used by the C1 witness: camera label
"C" known but not yet calibrated, intrinsics present, and the waypoint
consumer's dirty flag registered and currently cleared. -/
def witnessSub : ExtrinsicSubscriber where
  intrinsic_mtx := some ⟨3, 3, [1, 0, 320, 0, 1, 180, 0, 0, 1]⟩
  intrinsic_dist := some ⟨1, 5, [0, 0, 0, 0, 0]⟩
  extrinsic :=
    { cams := [("C", none)]
      update := [("WaypointSuscriber", false)]
      mtx := none
      dist := none }

/-- A concrete extrinsic calibration record for the witnesses. -/
def witnessCal : CamCal where
  image_size := (640, 360)
  waypoint_area := [(0, 180), (639, 180), (639, 359), (0, 359)]

/-- Witness for C1: a concrete reload on camera "C" whose waypoint-consumer
flag was false beforehand ends with every registry entry true. -/
theorem claim_C1_witness :
    ((witnessSub.cb_extrinsic_params "C" (some witnessCal)).1.extrinsic.update.all
      (fun kv => kv.2)) = true :=
  claim_C1_dirty_flags_all_true witnessSub "C" (some witnessCal) _ rfl rfl

/-- The fresh overlay state built by `WaypointSuscriber.__init__`
(lines 173-178): no click stored yet. -/
def waypointState0 : WaypointSuscriber where
  cam_label := "C"
  x_norm := none
  y_norm := none
  x_img := none
  y_img := none
  incnt := false

/-- Claim C2 counterexample: a click at normalized (0.5, 0.5) delivered
while camera "C" has no extrinsic calibration does report the
uncalibrated-camera error, but the normalized click coordinates do *not*
remain absent: lines 219-220 store them before the calibration check of
line 224. -/
theorem claim_C2_counterexample :
    ((WaypointSuscriber.cb_screen_point (fun _ _ => 0) [("C", none)]
        waypointState0 (1/2, 1/2)).1.x_norm ≠ none) ∧
    ((WaypointSuscriber.cb_screen_point (fun _ _ => 0) [("C", none)]
        waypointState0 (1/2, 1/2)).1.y_norm ≠ none) ∧
    (WaypointSuscriber.cb_screen_point (fun _ _ => 0) [("C", none)]
        waypointState0 (1/2, 1/2)).2 =
      [("ERROR", "error procesing waypoint camera C no calibrated")] := by
  refine ⟨?_, ?_, rfl⟩ <;> simp [WaypointSuscriber.cb_screen_point, waypointState0]

/-- Claim C2 as amended: on a click delivered while the camera's entry in
the extrinsic store is `None`, the handler reports the uncalibrated-camera
error and the pixel coordinates (`x_img`, `y_img`) are left untouched (so
they remain absent when previously absent) — but the *normalized* click
coordinates are stored before the calibration check fires. -/
theorem claim_C2_amended (ppt : List (Int × Int) → Int × Int → ℚ)
    (cams : List (String × Option CamCal)) (s : WaypointSuscriber)
    (msg : ℚ × ℚ) (h : cams.lookup s.cam_label = some none) :
    WaypointSuscriber.cb_screen_point ppt cams s msg =
      ({ s with x_norm := some msg.1, y_norm := some msg.2 },
       [("ERROR", "error procesing waypoint camera " ++ s.cam_label ++
         " no calibrated")]) := by
  unfold WaypointSuscriber.cb_screen_point
  simp only [h]

/-- Witness for the amended C2 at the concrete uncalibrated state and the
spec's click (0.5, 0.5). -/
theorem claim_C2_amended_witness :
    WaypointSuscriber.cb_screen_point (fun _ _ => 0) [("C", none)]
        waypointState0 (1/2, 1/2) =
      ({ waypointState0 with x_norm := some (1/2), y_norm := some (1/2) },
       [("ERROR", "error procesing waypoint camera C no calibrated")]) :=
  claim_C2_amended (fun _ _ => 0) [("C", none)] waypointState0 (1/2, 1/2) rfl

/-- Claim C3 evaluated at the failing input: `IntrinsicClass.load` on a
present, well-formed calibration file. The second conjunct (every
intrinsic field absent afterwards, no partial population) agrees with the
claim, but the first shows a `NameError` escaping the call — the `cv2`
name is never imported, so the `except` clause always runs on this path,
and its own log call references the undefined `FILE_NAME`. This
contradicts the claim that no exception propagates out of `load`. -/
theorem claim_C3_load_raises :
    (IntrinsicClass.load (some wellFormedIntrinsicFile) IntrinsicClass.empty).2.2
        = .error (.nameError "FILE_NAME") ∧
    (IntrinsicClass.load (some wellFormedIntrinsicFile) IntrinsicClass.empty).1
        = IntrinsicClass.empty := by
  constructor <;> rfl

/-- A concrete extrinsic-subscriber state for the C4 theorems: only camera
label "C" is known. -/
def extSub0 : ExtrinsicSubscriber where
  intrinsic_mtx := none
  intrinsic_dist := none
  extrinsic :=
    { cams := [("C", none)]
      update := [("WaypointSuscriber", true)]
      mtx := none
      dist := none }

/-- Claim C4 counterexample: a calibration-update event for the unknown
label "X" is indeed ignored (no state change), but no warning is logged —
the handler falls through to the `printlog` of line 148 and emits an
INFO-typed message reporting the parameters as updated. -/
theorem claim_C4_counterexample :
    (extSub0.cb_extrinsic_params "X" none).1 = extSub0 ∧
    ((extSub0.cb_extrinsic_params "X" none).2.1.all
      (fun entry => !(entry.1 == "WARN" || entry.1 == "WARNING"))) = true ∧
    (extSub0.cb_extrinsic_params "X" none).2.1 =
      [("INFO", "Extrinsic parameters for CAMX updated")] := by
  refine ⟨rfl, rfl, rfl⟩

/-- Claim C4 as amended: an event whose camera label is not a key of the
extrinsic camera store triggers no load and changes no state, and the
handler logs an INFO-typed "updated" message for the unknown label rather
than a warning. -/
theorem claim_C4_amended (s : ExtrinsicSubscriber) (cam_label : String)
    (file : Option CamCal)
    (hunk : (s.extrinsic.cams.lookup cam_label).isSome = false) :
    s.cb_extrinsic_params cam_label file =
      (s, [("INFO", "Extrinsic parameters for CAM" ++ cam_label ++ " updated")],
       none) := by
  unfold ExtrinsicSubscriber.cb_extrinsic_params
  rw [if_neg (by simp [hunk])]

/-- Witness for the amended C4 at the concrete state and unknown label
"X". -/
theorem claim_C4_amended_witness :
    extSub0.cb_extrinsic_params "X" none =
      (extSub0, [("INFO", "Extrinsic parameters for CAMX updated")], none) :=
  claim_C4_amended extSub0 "X" none rfl

/-- Claim C5: during curve sampling, each side independently retains
exactly the projections of the prefix of visited sample indices up to (and
not including) the first index whose containment test is negative —
nothing is retained from that index onward; and (second and third
conjuncts) the two sides may terminate at different indices, exhibited by
a run whose left side stops immediately while the right side retains two
samples. -/
theorem claim_C5_prefix_sampling :
    (∀ (P : Type) (lpt rpt : Int → P) (tl tr : Int → ℚ) (L : Int)
        (fuel : Nat) (idx inc : Int),
      projLoop lpt rpt tl tr L fuel idx inc false false [] [] =
        (((idxSeq L fuel idx inc).takeWhile (fun j => decide (0 ≤ tl j))).map lpt,
         ((idxSeq L fuel idx inc).takeWhile (fun j => decide (0 ≤ tr j))).map rpt))
    ∧ (projLoop (fun j => j) (fun j => j) (fun _ => -1) (fun _ => 0) 0 5 3 1
        false false [] []).1.length = 0
    ∧ (projLoop (fun j => j) (fun j => j) (fun _ => -1) (fun _ => 0) 0 5 3 1
        false false [] []).2.length = 2 := by
  refine ⟨?_, ?_, ?_⟩
  · intro P lpt rpt tl tr L fuel idx inc
    rw [projLoop_spec]
    simp
  · decide
  · decide

/-- Claim C6 counterexample: at the default configured offset 0.003 and
the curvature pair (+0.001, −0.001), the two `AR` values differ by only
0.00002, which is not more than twice the offset magnitude (0.006) — the
universally quantified difference claim fails. -/
theorem claim_C6_counterexample :
    (0 : ℚ) < 1/1000 ∧ (-(1/1000) : ℚ) < 0 ∧
    ¬ (|WaypointSuscriber.AR (3/1000) (1/1000)
        - WaypointSuscriber.AR (3/1000) (-(1/1000))| > 2 * |(3/1000 : ℚ)|) := by
  norm_num [WaypointSuscriber.AR, abs]

/-- Claim C6 as amended: `AR` is computed with the asymmetric scale —
`(0.01 + offset) * curvature` for positive curvature and
`(0.01 - offset) * curvature` otherwise — while `AL` is the symmetric
`0.01 * curvature`; and between a positive-curvature and a
negative-curvature case it is the scale factor applied to the curvature
(`AR / curvature`) that differs, by exactly twice the configured offset
(not the `AR` value by more than twice the offset). -/
theorem claim_C6_amended (ofs cpos cneg : ℚ) (hpos : 0 < cpos)
    (hneg : cneg < 0) :
    WaypointSuscriber.AR ofs cpos = (1/100 + ofs) * cpos ∧
    WaypointSuscriber.AR ofs cneg = (1/100 - ofs) * cneg ∧
    WaypointSuscriber.AL cpos = (1/100) * cpos ∧
    WaypointSuscriber.AR ofs cpos / cpos
      - WaypointSuscriber.AR ofs cneg / cneg = 2 * ofs := by
  refine ⟨?_, ?_, rfl, ?_⟩
  · rw [WaypointSuscriber.AR, if_pos hpos]
  · rw [WaypointSuscriber.AR, if_neg (not_lt.mpr hneg.le)]
  · rw [WaypointSuscriber.AR, if_pos hpos, WaypointSuscriber.AR,
      if_neg (not_lt.mpr hneg.le)]
    rw [mul_div_assoc, div_self (ne_of_gt hpos), mul_div_assoc,
      div_self (ne_of_lt hneg)]
    ring

/-- Witness for the amended C6 at offset 0.003 and curvatures ±1. -/
theorem claim_C6_amended_witness :
    WaypointSuscriber.AR (3/1000) 1 = (1/100 + 3/1000) * 1 ∧
    WaypointSuscriber.AR (3/1000) (-1) = (1/100 - 3/1000) * (-1) ∧
    WaypointSuscriber.AL 1 = (1/100) * 1 ∧
    WaypointSuscriber.AR (3/1000) 1 / 1
      - WaypointSuscriber.AR (3/1000) (-1) / (-1) = 2 * (3/1000) :=
  claim_C6_amended (3/1000) 1 (-1) (by norm_num) (by norm_num)

/-- Claim C7: at curvature exactly 0 both quadratic leading coefficients
are exactly 0 (straight-line footprint edges), for every configured
offset. -/
theorem claim_C7_zero_curvature (ofs : ℚ) :
    WaypointSuscriber.AR ofs 0 = 0 ∧ WaypointSuscriber.AL 0 = 0 := by
  constructor
  · simp [WaypointSuscriber.AR]
  · simp [WaypointSuscriber.AL]

/-- Claim C8: under monotone accumulated distances (as produced by the
`_proj_m` construction), segment rendering draws exactly the spec-side
list: it stops at the first index whose distance exceeds the last
threshold (5.0 m) — the vertical-segment indices are precisely the
`takeWhile (≤ 5)` prefix — and each crossing of one of the four
thresholds advances the color index one palette slot and steps the
thickness index down one, drawing a horizontal tick per crossing. -/
theorem claim_C8_distance_banding (pm : Nat → ℚ) (n : Nat)
    (hmono : ∀ a b : Nat, a ≤ b → pm a ≤ pm b) :
    drawSide pm n = .ok (specSegs pm (n - 1) 0 0) ∧
    ((specSegs pm (n - 1) 0 0).filter (fun s => !s.horizontal)).map
        (fun s => s.idx)
      = (List.range (n - 1)).takeWhile (fun j => decide (pm j ≤ 5)) := by
  constructor
  · have h := segLoop_spec pm hmono (n - 1) (n - 1) 0 (le_refl _) 0
      (Nat.zero_le _) (Nat.zero_le _) []
    simpa [drawSide, COLORS] using h
  · have h := specSegs_vert pm (n - 1) (n - 1) 0 (le_refl _) 0
    rw [List.range_eq_range']
    simpa using h

/-- Witness for C8 with the constant (hence monotone) distance sequence 2
and three retained samples. -/
theorem claim_C8_witness :
    drawSide (fun _ => (2 : ℚ)) 3 = .ok (specSegs (fun _ => (2 : ℚ)) 2 0 0) ∧
    ((specSegs (fun _ => (2 : ℚ)) 2 0 0).filter (fun s => !s.horizontal)).map
        (fun s => s.idx)
      = (List.range 2).takeWhile (fun _ => decide ((2 : ℚ) ≤ 5)) :=
  claim_C8_distance_banding (fun _ => 2) 3 (fun _ _ _ => le_refl 2)

/-- Claim C9: for every distance sequence and sample count, segment
rendering completes without any out-of-range table access (`IndexError`),
and every drawn primitive's color index is strictly below the length of
the color palette and of the distance-threshold table. Both the left-side
and the right-side loop are instances of `drawSide` (they differ only in
the sign of the tick offset), so this covers both sides. -/
theorem claim_C9_palette_access_in_bounds (pm : Nat → ℚ) (n : Nat) :
    ∃ segs, drawSide pm n = .ok segs ∧
      (segs.all (fun s => decide (s.colorIdx < COLORS.length) &&
        decide (s.colorIdx < DISTAN_M.length))) = true := by
  obtain ⟨segs, heq, hall⟩ := segLoop_ok pm (n - 1) (n - 1) 0 (le_refl _) 0
    (by omega) (COLORS.length : Int) (by simp [COLORS]) [] (by simp)
  refine ⟨segs, by simpa [drawSide] using heq, ?_⟩
  rw [List.all_eq_true]
  intro s hs
  have h := hall s hs
  simp only [Bool.and_eq_true, decide_eq_true_eq]
  constructor
  · simp [COLORS]; omega
  · simp [DISTAN_M]; omega

/-- Claim C10: for every distance sequence, sample count, and configured
base thickness, rendering completes with every drawn primitive's
thickness index non-negative — the index starts at the palette length and
the decrement step never drives it below zero — so every drawn line's
thickness `base + thickness_idx` is at least the configured base vertical
or horizontal thickness. -/
theorem claim_C10_thickness_floor (pm : Nat → ℚ) (n : Nat) (base : Int) :
    ∃ segs, drawSide pm n = .ok segs ∧
      (segs.all (fun s => decide (0 ≤ s.tIdx) &&
        decide (base ≤ base + s.tIdx))) = true := by
  obtain ⟨segs, heq, hall⟩ := segLoop_ok pm (n - 1) (n - 1) 0 (le_refl _) 0
    (by omega) (COLORS.length : Int) (by simp [COLORS]) [] (by simp)
  refine ⟨segs, by simpa [drawSide] using heq, ?_⟩
  rw [List.all_eq_true]
  intro s hs
  have h := hall s hs
  simp only [Bool.and_eq_true, decide_eq_true_eq]
  omega
